import Mathlib

/-!
# liblog: a shallow embedding of `src/log.c` and `include/log.h`

The C library keeps one `struct log` per logger: a `FILE *` sink, the process
id captured when the logger was opened, and a `pthread_mutex_t`.  The
embedding below keeps the same three fields, makes the C heap, the stdio
streams and `errno` an explicit `World`, and turns every C function into a
function `World → Outcome α`.

The services the code takes from the C library (`malloc`, `pthread_mutex_*`,
`fprintf`, `vfprintf`, `putc`, `setvbuf`, `fclose`, `abort`) are modelled by
small primitives; the values that come from outside the program (the result
of `malloc`, of `pthread_mutex_init`, of `getpid`, of `gettimeofday`, and what
`strerror_r` answers) are parameters.
-/

namespace Liblog

/-! ## C library model: decimal conversion and `printf` formatting -/

/-- The character for one decimal digit. -/
def digitChar (d : Nat) : Char := Char.ofNat (48 + d)

/-- Decimal digits of `n`, most significant first, pushed in front of `acc`.
The first argument bounds the number of digits produced. -/
def utoaAux : Nat → Nat → List Char → List Char
  | 0, _, acc => acc
  | fuel + 1, n, acc =>
    if n < 10 then digitChar n :: acc
    else utoaAux fuel (n / 10) (digitChar (n % 10) :: acc)

/-- Unpadded decimal representation of an unsigned value. -/
def utoa (n : Nat) : List Char := utoaAux (n + 1) n []

/-- Arguments of a variadic call, after the default argument promotions. -/
inductive Arg where
  | int (v : Int)
  | uint (v : Nat)
  | long (v : Int)
  | ulong (v : Nat)
  | str (s : List Char)
  /-- A `char *` that points to no string of the program: the null pointer
  (address 0) or an integer that was converted to a pointer. -/
  | ptr (addr : Int)

/-- One conversion specification: the `0` flag, the minimum field width and
the `l` length modifier. -/
structure Conv where
  zero : Bool
  width : Nat
  long : Bool

/-- Where the scanner of a format string stands. -/
inductive Scan where
  | text
  | flags (cv : Conv)
  | width (cv : Conv)
  | length (cv : Conv)

/-- A number rendered in a field: the sign comes first, and the padding is
zeros after the sign with the `0` flag, blanks before the sign without. The
field width is a minimum: longer numbers are never truncated. -/
def padNum (cv : Conv) (sign digits : List Char) : List Char :=
  let fill := cv.width - (sign.length + digits.length)
  if cv.zero then sign ++ List.replicate fill '0' ++ digits
  else List.replicate fill ' ' ++ sign ++ digits

/-- A signed value in a field. -/
def fmtSigned (cv : Conv) (v : Int) : List Char :=
  if v < 0 then padNum cv ['-'] (utoa v.natAbs) else padNum cv [] (utoa v.natAbs)

/-- An unsigned value in a field. -/
def fmtUnsigned (cv : Conv) (v : Nat) : List Char := padNum cv [] (utoa v)

/-- The conversion named by `c` applied to the next argument. `none` stands
for what is undefined: an argument of the wrong type, a missing argument, a
conversion outside `d i u s %`, or `%s` on a pointer that is neither a string
nor null. For `%s` on the null pointer the C libraries of Linux print
`(null)`. -/
def convert (cv : Conv) (c : Char) (ap : List Arg) : Option (List Char × List Arg) :=
  if c = 'd' ∨ c = 'i' then
    match cv.long, ap with
    | false, Arg.int v :: ap => some (fmtSigned cv v, ap)
    | true, Arg.long v :: ap => some (fmtSigned cv v, ap)
    | _, _ => none
  else if c = 'u' then
    match cv.long, ap with
    | false, Arg.uint v :: ap => some (fmtUnsigned cv v, ap)
    | true, Arg.ulong v :: ap => some (fmtUnsigned cv v, ap)
    | _, _ => none
  else if c = 's' then
    match cv.zero, cv.long, ap with
    | false, false, Arg.str s :: ap =>
      some (List.replicate (cv.width - s.length) ' ' ++ s, ap)
    | false, false, Arg.ptr addr :: ap =>
      if addr = 0 then
        some (List.replicate (cv.width - "(null)".toList.length) ' ' ++ "(null)".toList, ap)
      else none
    | _, _, _ => none
  else if c = '%' then
    match cv.zero, cv.width, cv.long with
    | false, 0, false => some (['%'], ap)
    | _, _, _ => none
  else none

/-- Value of a decimal digit character. -/
def digitVal (c : Char) : Nat := c.toNat - 48

/-- The formatting engine behind `fprintf` and `vfprintf`: ordinary characters
are copied, a `%` starts a conversion specification. -/
def vformatAux : Scan → List Char → List Arg → Option (List Char)
  | Scan.text, [], _ => some []
  | Scan.text, c :: fmt, ap =>
    if c = '%' then vformatAux (Scan.flags ⟨false, 0, false⟩) fmt ap
    else (vformatAux Scan.text fmt ap).map (fun out => c :: out)
  | Scan.flags _, [], _ => none
  | Scan.flags cv, c :: fmt, ap =>
    if c = '0' then vformatAux (Scan.flags { cv with zero := true }) fmt ap
    else if c.isDigit then vformatAux (Scan.width { cv with width := digitVal c }) fmt ap
    else if c = 'l' then vformatAux (Scan.length { cv with long := true }) fmt ap
    else match convert cv c ap with
      | none => none
      | some (s, ap) => (vformatAux Scan.text fmt ap).map (fun out => s ++ out)
  | Scan.width _, [], _ => none
  | Scan.width cv, c :: fmt, ap =>
    if c.isDigit then
      vformatAux (Scan.width { cv with width := 10 * cv.width + digitVal c }) fmt ap
    else if c = 'l' then vformatAux (Scan.length { cv with long := true }) fmt ap
    else match convert cv c ap with
      | none => none
      | some (s, ap) => (vformatAux Scan.text fmt ap).map (fun out => s ++ out)
  | Scan.length _, [], _ => none
  | Scan.length cv, c :: fmt, ap =>
    match convert cv c ap with
    | none => none
    | some (s, ap) => (vformatAux Scan.text fmt ap).map (fun out => s ++ out)

/-- The text `printf` produces for a format string and its arguments. -/
def vformat (fmt : List Char) (ap : List Arg) : Option (List Char) :=
  vformatAux Scan.text fmt ap

/-! ## The world: heap, streams, mutexes -/

/-- A `FILE *`. Zero is the null pointer. -/
abbrev FilePtr := Nat

/-- A `struct log *`. A null pointer is `none : Option LogPtr`. -/
abbrev LogPtr := Nat

/-- The address of the process's standard error stream. -/
def stderr : FilePtr := 2

/-- A stdio stream: the bytes it has accepted so far, whether it is open, and
whether `setvbuf` has put it in line-buffered mode. -/
structure FILE where
  bytes : List Char
  isOpen : Bool
  lineBuffered : Bool

/-- A `pthread_mutex_t`. -/
inductive Mutex where
  | uninit
  | unlocked
  | locked
  | destroyed
  deriving DecidableEq

/-- The C `struct log`. -/
structure log where
  log_f : FilePtr
  log_pid : Int
  log_mux : Mutex

/-- What the program did to the outside, in order. -/
inductive Event where
  | malloc (p : LogPtr)
  | free (p : LogPtr)
  | mutex_init (p : LogPtr)
  | mutex_lock (p : LogPtr)
  | mutex_unlock (p : LogPtr)
  | mutex_destroy (p : LogPtr)
  | gettimeofday
  | write (f : FilePtr) (bytes : List Char)
  | setvbuf (f : FilePtr)
  | fclose (f : FilePtr)
  | abort
  deriving DecidableEq

/-- The state the library runs in. `heap p = none` means that no `struct log`
is allocated at `p`. -/
structure World where
  files : FilePtr → FILE
  heap : LogPtr → Option log
  errno : Int
  events : List Event

/-- How a call ends. -/
inductive Outcome (α : Type) where
  /-- The call returns `v`. -/
  | returned (v : α) (w : World)
  /-- The process was terminated by `abort`. -/
  | aborted (w : World)
  /-- The call waits for a mutex that is held and never gets it. -/
  | blocked (w : World)
  /-- The call did something C leaves undefined. -/
  | undefined

/-- A C function body: from the state before to the way the call ends. -/
def Proc (α : Type) : Type := World → Outcome α

/-- Sequencing: the rest runs only when the first part returns. -/
def Proc.bind {α β : Type} (x : Proc α) (k : α → Proc β) : Proc β := fun w =>
  match x w with
  | Outcome.returned v w1 => k v w1
  | Outcome.aborted w1 => Outcome.aborted w1
  | Outcome.blocked w1 => Outcome.blocked w1
  | Outcome.undefined => Outcome.undefined

instance : Monad Proc where
  pure v := fun w => Outcome.returned v w
  bind := Proc.bind

/-- Record one event. -/
def World.emit (w : World) (e : Event) : World :=
  { w with events := w.events ++ [e] }

/-- Store a `struct log` at `p`, or free the cell with `none`. -/
def World.setLog (w : World) (p : LogPtr) (v : Option log) : World :=
  { w with heap := fun q => if q = p then v else w.heap q }

/-- Replace the stream at `f`. -/
def World.setFile (w : World) (f : FilePtr) (v : FILE) : World :=
  { w with files := fun q => if q = f then v else w.files q }

def EINVAL : Int := 22

def ENOMEM : Int := 12

/-- A conversion to `unsigned`, 32 bits wide. -/
def toUnsigned (v : Int) : Nat := (v % 2 ^ 32).toNat

/-- The allocator. Which address it hands out, or that it fails, is decided
outside the program. A failure sets `errno` to `ENOMEM`. The fresh memory is
indeterminate; the caller clears it with `memset` before use. -/
def malloc (result : Option LogPtr) : Proc (Option LogPtr) := fun w =>
  match result with
  | none => Outcome.returned none { w with errno := ENOMEM }
  | some p =>
    Outcome.returned (some p) ((w.setLog p (some ⟨0, 0, Mutex.uninit⟩)).emit (Event.malloc p))

/-- Clearing a `struct log` with `memset(log, 0, sizeof(struct log))`. -/
def memset_zero (p : LogPtr) : Proc Unit := fun w =>
  match w.heap p with
  | none => Outcome.undefined
  | some _ => Outcome.returned () (w.setLog p (some ⟨0, 0, Mutex.uninit⟩))

/-- Releasing a `struct log` with `free`. -/
def free (p : LogPtr) : Proc Unit := fun w =>
  match w.heap p with
  | none => Outcome.undefined
  | some _ => Outcome.returned () ((w.setLog p none).emit (Event.free p))

/-- Reading the object `*p`. -/
def load (p : LogPtr) : Proc log := fun w =>
  match w.heap p with
  | none => Outcome.undefined
  | some lg => Outcome.returned lg w

/-- Writing the object `*p`. -/
def store (p : LogPtr) (lg : log) : Proc Unit := fun w =>
  match w.heap p with
  | none => Outcome.undefined
  | some _ => Outcome.returned () (w.setLog p (some lg))

/-- Initialising the mutex `&p->log_mux`. Whether it succeeds is decided
outside the program: `result` is the error code, zero for success. -/
def pthread_mutex_init (p : LogPtr) (result : Int) : Proc Int := fun w =>
  match w.heap p with
  | none => Outcome.undefined
  | some lg =>
    if result = 0 then
      Outcome.returned 0
        ((w.setLog p (some { lg with log_mux := Mutex.unlocked })).emit (Event.mutex_init p))
    else Outcome.returned result w

/-- Locking `&p->log_mux`: succeeds at once on a free mutex, waits on a held
one. -/
def pthread_mutex_lock (p : LogPtr) : Proc Int := fun w =>
  match w.heap p with
  | none => Outcome.undefined
  | some lg =>
    match lg.log_mux with
    | Mutex.unlocked =>
      Outcome.returned 0
        ((w.setLog p (some { lg with log_mux := Mutex.locked })).emit (Event.mutex_lock p))
    | Mutex.locked => Outcome.blocked w
    | _ => Outcome.undefined

/-- Unlocking `&p->log_mux`. -/
def pthread_mutex_unlock (p : LogPtr) : Proc Int := fun w =>
  match w.heap p with
  | none => Outcome.undefined
  | some lg =>
    match lg.log_mux with
    | Mutex.locked =>
      Outcome.returned 0
        ((w.setLog p (some { lg with log_mux := Mutex.unlocked })).emit (Event.mutex_unlock p))
    | _ => Outcome.undefined

/-- Destroying `&p->log_mux`. Destroying a held mutex is undefined. -/
def pthread_mutex_destroy (p : LogPtr) : Proc Int := fun w =>
  match w.heap p with
  | none => Outcome.undefined
  | some lg =>
    match lg.log_mux with
    | Mutex.unlocked =>
      Outcome.returned 0
        ((w.setLog p (some { lg with log_mux := Mutex.destroyed })).emit (Event.mutex_destroy p))
    | _ => Outcome.undefined

/-- The call `setvbuf(f, NULL, _IOLBF, 0)`. -/
def setvbuf_IOLBF (f : FilePtr) : Proc Int := fun w =>
  Outcome.returned 0
    ((w.setFile f { w.files f with lineBuffered := true }).emit (Event.setvbuf f))

/-- Appending bytes to a stream. Writing to a closed stream is undefined. -/
def fwrite (f : FilePtr) (s : List Char) : Proc Int := fun w =>
  if (w.files f).isOpen then
    Outcome.returned (s.length : Int)
      ((w.setFile f { w.files f with bytes := (w.files f).bytes ++ s }).emit (Event.write f s))
  else Outcome.undefined

/-- The calls `fprintf(f, fmt, ...)` and `vfprintf(f, fmt, ap)`. -/
def vfprintf (f : FilePtr) (fmt : List Char) (ap : List Arg) : Proc Int :=
  match vformat fmt ap with
  | none => fun _ => Outcome.undefined
  | some s => fwrite f s

/-- The call `putc(c, f)`. -/
def putc (c : Char) (f : FilePtr) : Proc Int := fwrite f [c]

/-- The call `fclose(f)`. Closing a closed stream is undefined. -/
def fclose (f : FilePtr) : Proc Int := fun w =>
  if (w.files f).isOpen then
    Outcome.returned 0
      ((w.setFile f { w.files f with isOpen := false }).emit (Event.fclose f))
  else Outcome.undefined

/-- The call `gettimeofday(&tv, NULL)`: the reading `tv` comes from outside. -/
def gettimeofday (tv : Int × Int) : Proc (Int × Int) := fun w =>
  Outcome.returned tv (w.emit Event.gettimeofday)

/-- The call `abort()`. -/
def abort {α : Type} : Proc α := fun w => Outcome.aborted (w.emit Event.abort)

/-! ## `include/log.h` -/

/-- The enumerators of `enum log_level`, in declaration order. -/
def LOG_CRIT : Int := 0

def LOG_ERR : Int := 1

def LOG_WARN : Int := 2

def LOG_INFO : Int := 3

def LOG_TRACE : Int := 4

def LOG_DEBUG : Int := 5

/-! ## `src/log.c` -/

/-- The function `log_open_f`. It returns the error code together with the
pointer it stores in `*newlog`. The three extra arguments are what `malloc`,
`getpid` and `pthread_mutex_init` answer. -/
def log_open_f (f : FilePtr) (mallocResult : Option LogPtr) (pid : Int) (muxResult : Int) :
    Proc (Int × Option LogPtr) := do
  match ← malloc mallocResult with
  | none =>
    let err ← (fun w => Outcome.returned w.errno w : Proc Int)
    -- fail_malloc:
    pure (err, none)
  | some p =>
    memset_zero p
    let lg ← load p
    store p { lg with log_f := f }
    let lg ← load p
    store p { lg with log_pid := pid }
    let err ← pthread_mutex_init p muxResult
    if err ≠ 0 then
      -- fail_mux:
      free p
      pure (err, none)
    else
      let _ ← setvbuf_IOLBF f
      pure (0, some p)

/-- The function `log_close`. -/
def log_close (p : LogPtr) : Proc Unit := do
  let lg ← load p
  if lg.log_f ≠ stderr then
    let _ ← fclose lg.log_f
  let _ ← pthread_mutex_destroy p
  free p

/-- The table `levelstr` of `log_printf_at`. -/
def levelstr : List (List Char) :=
  ["[PAN]".toList, "[ERR]".toList, "[WRN]".toList, "[INF]".toList, "[TRC]".toList,
   "[DBG]".toList]

/-- The format of the part of a line that `log_printf_at` writes itself. -/
def headFormat : List Char := "%ld.%06ld: %05u: %s %s:%u: in %s(): ".toList

/-- The function `log_printf_at`. `ap` holds the variadic arguments and `tv`
is what `gettimeofday` answers during the call. -/
def log_printf_at (p : LogPtr) (file : List Char) (line : Nat) (func : List Char)
    (level : Int) (fmt : List Char) (ap : List Arg) (tv : Int × Int) : Proc Int := do
  if toUnsigned level ≥ levelstr.length then
    return EINVAL
  else
    let _ ← pthread_mutex_lock p
    let f := (← load p).log_f
    let tv ← gettimeofday tv
    let _ ← vfprintf f headFormat
      [Arg.long tv.1, Arg.long tv.2, Arg.uint (toUnsigned (← load p).log_pid),
       Arg.str (levelstr.getD level.toNat []), Arg.str file, Arg.uint line, Arg.str func]
    let _ ← vfprintf f fmt ap
    let _ ← putc '\n' f
    let _ ← pthread_mutex_unlock p
    return 0

/-- The function `log_abort_at`. -/
def log_abort_at (p : LogPtr) (file : List Char) (line : Nat) (func : List Char)
    (msg : List Char) (tv : Int × Int) : Proc Unit := do
  let _ ← log_printf_at p file line func LOG_CRIT "%s".toList [Arg.str msg] tv
  let _ ← pthread_mutex_lock p
  let _ ← fclose (← load p).log_f
  abort

/-- The function `log_perror_at`, in the branch compiled on Linux. The file
defines no feature-test macro before its includes, so the `strerror_r` that
`<string.h>` declares is the XSI one: it returns an `int`, zero for success
and an error number otherwise, and stores the text in `buf`. The argument
`strerror_r err n` is that pair, the returned `int` and the stored text, for
error `err` and a buffer of `n` bytes. The code initialises the pointer `s`
with the returned `int` and never reads `buf`. -/
def log_perror_at (strerror_r : Int → Nat → Int × List Char) (p : LogPtr) (file : List Char)
    (line : Nat) (func : List Char) (level : Int) (msg : List Char) (err : Int)
    (tv : Int × Int) : Proc Int := do
  if err = 0 then
    log_abort_at p file line func "log_perror() called with a zero error code".toList tv
  let s := (strerror_r err (128 - 1)).1
  log_printf_at p file line func level "%s: %s".toList [Arg.str msg, Arg.ptr s] tv

/-! ## Wording of the specification -/

/-- A signed value in decimal, unpadded. -/
def decimal (v : Int) : List Char :=
  if v < 0 then '-' :: utoa v.natAbs else utoa v.natAbs

/-- A text padded with zeros on the left up to `width` characters. -/
def zeroPad (width : Nat) (s : List Char) : List Char :=
  List.replicate (width - s.length) '0' ++ s

/-- The three-letter tag the specification gives each severity. -/
def specTag (level : Int) : List Char :=
  if level = LOG_CRIT then "PAN".toList
  else if level = LOG_ERR then "ERR".toList
  else if level = LOG_WARN then "WRN".toList
  else if level = LOG_INFO then "INF".toList
  else if level = LOG_TRACE then "TRC".toList
  else if level = LOG_DEBUG then "DBG".toList
  else []

/-- The line of the specification:
`<sec>.<usec6digits>: <pid5digits>: [TAG] <file>:<line>: in <function>(): <message>\n`. -/
def specLine (sec usec pid : Int) (tag file : List Char) (line : Nat) (func m : List Char) :
    List Char :=
  decimal sec ++ ".".toList ++ zeroPad 6 (decimal usec) ++ ": ".toList ++
    zeroPad 5 (decimal pid) ++ ": [".toList ++ tag ++ "] ".toList ++ file ++ ":".toList ++
    utoa line ++ ": in ".toList ++ func ++ "(): ".toList ++ m ++ "\n".toList

/-- Every character is a decimal digit. -/
def IsDigits (s : List Char) : Prop := ∀ c ∈ s, c.isDigit = true

/-- The grammar of the round-trip property: one or more digits, a dot, exactly
six digits, `: `, exactly `pidDigits` digits, and the fixed rest of the line. -/
def lineGrammar (pidDigits : Nat) (s : List Char) : Prop :=
  ∃ secs usecs pids : List Char,
    s = secs ++ ".".toList ++ usecs ++ ": ".toList ++ pids ++
      ": [INF] x.c:42: in f(): hello 7\n".toList ∧
    secs ≠ [] ∧ IsDigits secs ∧ usecs.length = 6 ∧ IsDigits usecs ∧
    pids.length = pidDigits ∧ IsDigits pids

/-- The fixed end of the round-trip line, after the process-id field. -/
def roundTripTail : List Char := ": [INF] x.c:42: in f(): hello 7\n".toList

/-- A matcher for `lineGrammar`: it reads the line from left to right. -/
def matchLine (pidDigits : Nat) (s : List Char) : Bool :=
  !(s.takeWhile Char.isDigit).isEmpty &&
  match s.dropWhile Char.isDigit with
  | '.' :: r =>
    (r.take 6).length == 6 && (r.take 6).all Char.isDigit &&
    match r.drop 6 with
    | ':' :: ' ' :: r' =>
      (r'.take pidDigits).length == pidDigits && (r'.take pidDigits).all Char.isDigit &&
        r'.drop pidDigits == roundTripTail
    | _ => false
  | _ => false

/-- Whether every write to `f` in a run of events happens between a lock and
the next unlock of the mutex of `p`. `held` says whether the run starts with
the mutex held. -/
def lockedWrites (p : LogPtr) (f : FilePtr) : Bool → List Event → Bool
  | _, [] => true
  | held, Event.mutex_lock q :: es => lockedWrites p f (if q = p then true else held) es
  | held, Event.mutex_unlock q :: es => lockedWrites p f (if q = p then false else held) es
  | held, Event.write g _ :: es => (decide (g ≠ f) || held) && lockedWrites p f held es
  | held, _ :: es => lockedWrites p f held es

/-! ## Outcomes of the code, spelled out -/

/-- The part of a line in front of the message, conversion by conversion. -/
def lineHead (sec usec : Int) (pid : Nat) (tag file : List Char) (line : Nat)
    (func : List Char) : List Char :=
  fmtSigned ⟨false, 0, true⟩ sec ++ '.' :: (fmtSigned ⟨true, 6, true⟩ usec ++ ':' :: ' ' ::
    (fmtUnsigned ⟨true, 5, false⟩ pid ++ ':' :: ' ' :: (tag ++ ' ' :: (file ++ ':' ::
      (fmtUnsigned ⟨false, 0, false⟩ line ++ ':' :: ' ' :: 'i' :: 'n' :: ' ' ::
        (func ++ ['(', ')', ':', ' ']))))))

/-- The state a successful `log_printf_at` leaves behind: the line is at the
end of the sink, the mutex is free, six events were added. -/
def afterLine (w : World) (p : LogPtr) (lg : log) (pre m : List Char) : World :=
  { files := fun q => if q = lg.log_f then
      { w.files lg.log_f with bytes := (w.files lg.log_f).bytes ++ (pre ++ m ++ ['\n']) }
      else w.files q
    heap := fun q => if q = p then some { lg with log_mux := Mutex.unlocked } else w.heap q
    errno := w.errno
    events := w.events ++ [Event.mutex_lock p, Event.gettimeofday, Event.write lg.log_f pre,
      Event.write lg.log_f m, Event.write lg.log_f ['\n'], Event.mutex_unlock p] }

/-! ## Concrete states -/

/-- A state with every stream open and empty and nothing allocated. -/
def emptyWorld : World :=
  { files := fun _ => ⟨[], true, false⟩, heap := fun _ => none, errno := 0, events := [] }

/-- A logger at address 1, on stream 7, of process 12345, with a free mutex. -/
def demoLog : log := ⟨7, 12345, Mutex.unlocked⟩

/-- The state `emptyWorld` with `demoLog` allocated at address 1. -/
def demoWorld : World :=
  { emptyWorld with heap := fun q => if q = 1 then some demoLog else none }

/-- A logger at address 1 on the standard error stream. -/
def stderrLog : log := ⟨stderr, 12345, Mutex.unlocked⟩

/-- The state `emptyWorld` with `stderrLog` allocated at address 1. -/
def stderrWorld : World :=
  { emptyWorld with heap := fun q => if q = 1 then some stderrLog else none }

/-- An XSI `strerror_r` that knows error 2: it answers 0 and stores the text
for error 2, and answers `EINVAL` for every other code. -/
def demoStrerror : Int → Nat → Int × List Char := fun err _ =>
  if err = 2 then (0, "No such file or directory".toList) else (EINVAL, "Unknown error".toList)

/-- The state a successful `log_open_f` leaves behind. -/
def afterOpen (w : World) (f : FilePtr) (p : LogPtr) (pid : Int) : World :=
  { files := fun q => if q = f then { w.files f with lineBuffered := true } else w.files q
    heap := fun q => if q = p then some ⟨f, pid, Mutex.unlocked⟩ else w.heap q
    errno := w.errno
    events := w.events ++ [Event.malloc p, Event.mutex_init p, Event.setvbuf f] }

/-- The state `log_open_f` leaves behind when the mutex cannot be initialised. -/
def afterOpenFailed (w : World) (p : LogPtr) : World :=
  { files := w.files
    heap := fun q => if q = p then none else w.heap q
    errno := w.errno
    events := w.events ++ [Event.malloc p, Event.free p] }

/-- The state `log_close` leaves behind. -/
def afterClose (w : World) (p : LogPtr) (lg : log) : World :=
  { files := fun q => if q = lg.log_f ∧ lg.log_f ≠ stderr then
      { w.files lg.log_f with isOpen := false } else w.files q
    heap := fun q => if q = p then none else w.heap q
    errno := w.errno
    events := w.events ++ (if lg.log_f ≠ stderr then [Event.fclose lg.log_f] else []) ++
      [Event.mutex_destroy p, Event.free p] }

/-- The state in which `log_abort_at` ends the process. -/
def afterAbort (w : World) (p : LogPtr) (lg : log) (pre m : List Char) : World :=
  { files := fun q => if q = lg.log_f then
      { w.files lg.log_f with
        bytes := (w.files lg.log_f).bytes ++ (pre ++ m ++ ['\n']), isOpen := false }
      else w.files q
    heap := fun q => if q = p then some { lg with log_mux := Mutex.locked } else w.heap q
    errno := w.errno
    events := w.events ++ [Event.mutex_lock p, Event.gettimeofday, Event.write lg.log_f pre,
      Event.write lg.log_f m, Event.write lg.log_f ['\n'], Event.mutex_unlock p,
      Event.mutex_lock p, Event.fclose lg.log_f, Event.abort] }

/-- The message `log_perror_at` hands to `log_abort_at` for a zero error code. -/
def zeroErrorMessage : List Char := "log_perror() called with a zero error code".toList

/-! ## Lemmas on the C library model -/

theorem Proc.bind_apply {α β : Type} (x : Proc α) (k : α → Proc β) (w : World) :
    (x >>= k) w = Proc.bind x k w := rfl

theorem Proc.pure_apply {α : Type} (v : α) (w : World) :
    (pure v : Proc α) w = Outcome.returned v w := rfl

theorem digitChar_isDigit (d : Nat) (h : d < 10) : (digitChar d).isDigit = true := by
  interval_cases d <;> decide

theorem utoaAux_isDigits (fuel : Nat) : ∀ (n : Nat) (acc : List Char),
    IsDigits acc → IsDigits (utoaAux fuel n acc) := by
  induction fuel with
  | zero => intro n acc h; simpa [utoaAux] using h
  | succ fuel ih =>
    intro n acc h
    unfold utoaAux
    split
    · intro c hc
      rcases List.mem_cons.mp hc with rfl | hc
      · exact digitChar_isDigit n (by assumption)
      · exact h c hc
    · apply ih
      intro c hc
      rcases List.mem_cons.mp hc with rfl | hc
      · exact digitChar_isDigit _ (Nat.mod_lt _ (by decide))
      · exact h c hc

theorem utoa_isDigits (n : Nat) : IsDigits (utoa n) :=
  utoaAux_isDigits _ _ _ (fun _ h => absurd h (List.not_mem_nil _))

theorem utoaAux_length_le (fuel : Nat) : ∀ (n k : Nat) (acc : List Char),
    n < fuel → n < 10 ^ (k + 1) → (utoaAux fuel n acc).length ≤ k + 1 + acc.length := by
  induction fuel with
  | zero => intro n k acc h; omega
  | succ fuel ih =>
    intro n k acc hf hk
    unfold utoaAux
    split
    · simp; omega
    · rename_i h10
      cases k with
      | zero => simp at hk; omega
      | succ k =>
        have h1 : n / 10 < 10 ^ (k + 1) := by
          rw [Nat.div_lt_iff_lt_mul (by decide)]
          rw [Nat.pow_succ] at hk
          exact hk
        have h2 := ih (n / 10) k (digitChar (n % 10) :: acc) (by omega) h1
        simp at h2
        omega

theorem utoaAux_length_ge (fuel : Nat) : ∀ (n k : Nat) (acc : List Char),
    n < fuel → 10 ^ k ≤ n → k + 1 + acc.length ≤ (utoaAux fuel n acc).length := by
  induction fuel with
  | zero => intro n k acc h; omega
  | succ fuel ih =>
    intro n k acc hf hk
    unfold utoaAux
    split
    · rename_i h10
      cases k with
      | zero => simp; omega
      | succ k =>
        have h1 : 10 ^ 1 ≤ 10 ^ (k + 1) := Nat.pow_le_pow_right (by decide) (by omega)
        rw [Nat.pow_one] at h1
        omega
    · rename_i h10
      cases k with
      | zero =>
        have h2 := ih (n / 10) 0 (digitChar (n % 10) :: acc) (by omega) (by simp; omega)
        simp at h2
        omega
      | succ k =>
        have h1 : 10 ^ k ≤ n / 10 := by
          rw [Nat.le_div_iff_mul_le (by decide)]
          rw [Nat.pow_succ] at hk
          exact hk
        have h2 := ih (n / 10) k (digitChar (n % 10) :: acc) (by omega) h1
        simp at h2
        omega

theorem utoa_length_le (n k : Nat) (h : n < 10 ^ (k + 1)) : (utoa n).length ≤ k + 1 := by
  simpa using utoaAux_length_le (n + 1) n k [] (by omega) h

theorem utoa_length_ge (n k : Nat) (h : 10 ^ k ≤ n) : k + 1 ≤ (utoa n).length := by
  simpa using utoaAux_length_ge (n + 1) n k [] (by omega) h

theorem utoa_length_pos (n : Nat) : 1 ≤ (utoa n).length := by
  cases n with
  | zero => decide
  | succ n => exact utoa_length_ge (n + 1) 0 (by simp)

/-! ## The line `log_printf_at` composes -/

theorem vformat_headFormat (sec usec : Int) (pid : Nat) (tag file : List Char) (line : Nat)
    (func : List Char) :
    vformat headFormat [Arg.long sec, Arg.long usec, Arg.uint pid, Arg.str tag, Arg.str file,
      Arg.uint line, Arg.str func] = some (lineHead sec usec pid tag file line func) := by
  simp [vformat, headFormat, vformatAux, convert, lineHead, digitVal]

theorem vformat_percent_s (msg : List Char) : vformat "%s".toList [Arg.str msg] = some msg := by
  simp [vformat, vformatAux, convert]

theorem vformat_perror_null (msg : List Char) :
    vformat "%s: %s".toList [Arg.str msg, Arg.ptr 0] = some (msg ++ ": (null)".toList) := by
  simp [vformat, vformatAux, convert]

theorem toUnsigned_lt_iff (level : Int) (h : -2 ^ 31 ≤ level ∧ level < 2 ^ 32) :
    toUnsigned level < 6 ↔ 0 ≤ level ∧ level < 6 := by
  unfold toUnsigned
  omega

theorem toUnsigned_of_level (level : Int) (h : 0 ≤ level ∧ level < 6) :
    toUnsigned level < 6 := by
  unfold toUnsigned
  omega

theorem levelstr_eq_specTag (level : Int) (h : 0 ≤ level ∧ level < 6) :
    levelstr.getD level.toNat [] = '[' :: (specTag level ++ [']']) := by
  obtain ⟨h0, h6⟩ := h
  interval_cases level <;> decide

theorem fmtSigned_plain (v : Int) : fmtSigned ⟨false, 0, true⟩ v = decimal v := by
  unfold fmtSigned decimal padNum
  split <;> simp

theorem fmtSigned_zero (width : Nat) (v : Int) (h : 0 ≤ v) :
    fmtSigned ⟨true, width, true⟩ v = zeroPad width (decimal v) := by
  have hn : ¬ v < 0 := by omega
  simp [fmtSigned, decimal, padNum, zeroPad, hn]

theorem fmtUnsigned_zero (width : Nat) (v : Int) (h : 0 ≤ v ∧ v < 2 ^ 32) :
    fmtUnsigned ⟨true, width, false⟩ (toUnsigned v) = zeroPad width (decimal v) := by
  have hn : ¬ v < 0 := by omega
  have hv : toUnsigned v = v.natAbs := by unfold toUnsigned; omega
  simp [fmtUnsigned, decimal, padNum, zeroPad, hn, hv]

theorem fmtUnsigned_plain (v : Nat) : fmtUnsigned ⟨false, 0, false⟩ v = utoa v := by
  simp [fmtUnsigned, padNum]

/-- The line the code composes is the line of the specification. -/
theorem lineHead_eq_specLine (sec usec pid level : Int) (file : List Char) (line : Nat)
    (func m : List Char) (husec : 0 ≤ usec) (hpid : 0 ≤ pid ∧ pid < 2 ^ 32)
    (hlevel : 0 ≤ level ∧ level < 6) :
    lineHead sec usec (toUnsigned pid) (levelstr.getD level.toNat []) file line func ++ m ++
      ['\n'] = specLine sec usec pid (specTag level) file line func m := by
  rw [levelstr_eq_specTag level hlevel]
  simp [lineHead, specLine, fmtSigned_plain, fmtSigned_zero 6 usec husec,
    fmtUnsigned_zero 5 pid hpid, fmtUnsigned_plain]

/-! ## What each function does to the world -/

theorem log_printf_at_einval (w : World) (p : LogPtr) (file : List Char) (line : Nat)
    (func : List Char) (level : Int) (fmt : List Char) (ap : List Arg) (tv : Int × Int)
    (hlevel : ¬ toUnsigned level < 6) :
    log_printf_at p file line func level fmt ap tv w = Outcome.returned EINVAL w := by
  have h6 : levelstr.length = 6 := rfl
  have hn : 6 ≤ toUnsigned level := by omega
  simp [log_printf_at, h6, hn, Proc.pure_apply]

theorem log_printf_at_run (w : World) (p : LogPtr) (lg : log) (file : List Char) (line : Nat)
    (func : List Char) (level : Int) (fmt : List Char) (ap : List Arg) (m : List Char)
    (tv : Int × Int)
    (hlive : w.heap p = some lg) (hfree : lg.log_mux = Mutex.unlocked)
    (hopen : (w.files lg.log_f).isOpen = true) (hlevel : toUnsigned level < 6)
    (hfmt : vformat fmt ap = some m) :
    log_printf_at p file line func level fmt ap tv w =
      Outcome.returned 0 (afterLine w p lg
        (lineHead tv.1 tv.2 (toUnsigned lg.log_pid) (levelstr.getD level.toNat []) file line
          func) m) := by
  have h6 : levelstr.length = 6 := rfl
  have hn : ¬ (6 ≤ toUnsigned level) := by omega
  simp [log_printf_at, h6, hn, Proc.bind_apply, Proc.pure_apply, Proc.bind, pthread_mutex_lock,
    hlive, hfree, load, World.setLog, World.emit, gettimeofday, vfprintf, vformat_headFormat,
    fwrite, hopen, World.setFile, hfmt, putc, pthread_mutex_unlock, afterLine]
  constructor
  · funext q
    by_cases hq : q = lg.log_f <;> simp [hq]
  · funext q
    by_cases hp : q = p <;> simp [hp]

/-- A format that `printf` cannot render makes the call undefined. -/
theorem log_printf_at_bad_format (w : World) (p : LogPtr) (lg : log) (file : List Char)
    (line : Nat) (func : List Char) (level : Int) (fmt : List Char) (ap : List Arg)
    (tv : Int × Int)
    (hlive : w.heap p = some lg) (hfree : lg.log_mux = Mutex.unlocked)
    (hopen : (w.files lg.log_f).isOpen = true) (hlevel : toUnsigned level < 6)
    (hfmt : vformat fmt ap = none) :
    log_printf_at p file line func level fmt ap tv w = Outcome.undefined := by
  have h6 : levelstr.length = 6 := rfl
  have hn : ¬ (6 ≤ toUnsigned level) := by omega
  simp [log_printf_at, h6, hn, Proc.bind_apply, Proc.bind, pthread_mutex_lock,
    hlive, hfree, load, World.setLog, World.emit, gettimeofday, vfprintf,
    vformat_headFormat, fwrite, hopen, World.setFile, hfmt]

/-- Every way a call of `log_printf_at` with a valid level can end. -/
theorem log_printf_at_cases (w : World) (p : LogPtr) (file : List Char) (line : Nat)
    (func : List Char) (level : Int) (fmt : List Char) (ap : List Arg) (tv : Int × Int)
    (hlevel : toUnsigned level < 6) :
    (∃ lg m, w.heap p = some lg ∧ lg.log_mux = Mutex.unlocked ∧
      (w.files lg.log_f).isOpen = true ∧ vformat fmt ap = some m ∧
      log_printf_at p file line func level fmt ap tv w =
        Outcome.returned 0 (afterLine w p lg
          (lineHead tv.1 tv.2 (toUnsigned lg.log_pid) (levelstr.getD level.toNat []) file line
            func) m)) ∨
    log_printf_at p file line func level fmt ap tv w = Outcome.blocked w ∨
    log_printf_at p file line func level fmt ap tv w = Outcome.undefined := by
  have h6 : levelstr.length = 6 := rfl
  have hn : ¬ (6 ≤ toUnsigned level) := by omega
  cases hlive : w.heap p with
  | none =>
    right; right
    simp [log_printf_at, h6, hn, Proc.bind_apply, Proc.bind, pthread_mutex_lock, hlive]
  | some lg =>
    cases hmux : lg.log_mux with
    | uninit =>
      right; right
      simp [log_printf_at, h6, hn, Proc.bind_apply, Proc.bind, pthread_mutex_lock, hlive, hmux]
    | destroyed =>
      right; right
      simp [log_printf_at, h6, hn, Proc.bind_apply, Proc.bind, pthread_mutex_lock, hlive, hmux]
    | locked =>
      right; left
      simp [log_printf_at, h6, hn, Proc.bind_apply, Proc.bind, pthread_mutex_lock, hlive, hmux]
    | unlocked =>
      cases hopen : (w.files lg.log_f).isOpen with
      | false =>
        right; right
        simp [log_printf_at, h6, hn, Proc.bind_apply, Proc.bind, pthread_mutex_lock,
          hlive, hmux, load, World.setLog, World.emit, gettimeofday, vfprintf,
          vformat_headFormat, fwrite, hopen]
      | true =>
        cases hfmt : vformat fmt ap with
        | none =>
          right; right
          simp [log_printf_at, h6, hn, Proc.bind_apply, Proc.bind, pthread_mutex_lock,
            hlive, hmux, load, World.setLog, World.emit, gettimeofday, vfprintf,
            vformat_headFormat, fwrite, hopen, World.setFile, hfmt]
        | some m =>
          left
          exact ⟨lg, m, rfl, hmux, hopen, rfl, log_printf_at_run w p lg file line func level fmt
            ap m tv hlive hmux hopen hlevel hfmt⟩

theorem log_open_f_run (w : World) (f : FilePtr) (p : LogPtr) (pid : Int) :
    log_open_f f (some p) pid 0 w = Outcome.returned (0, some p) (afterOpen w f p pid) := by
  simp [log_open_f, Proc.bind_apply, Proc.pure_apply, Proc.bind, malloc, memset_zero, load, store,
    World.setLog, World.emit, pthread_mutex_init, setvbuf_IOLBF, World.setFile, afterOpen]
  funext q
  by_cases hp : q = p <;> simp [hp]

theorem log_open_f_nomem (w : World) (f : FilePtr) (pid muxResult : Int) :
    log_open_f f none pid muxResult w =
      Outcome.returned (ENOMEM, none) { w with errno := ENOMEM } := by
  simp [log_open_f, Proc.bind_apply, Proc.pure_apply, Proc.bind, malloc]

theorem log_open_f_nomux (w : World) (f : FilePtr) (p : LogPtr) (pid muxResult : Int)
    (h : muxResult ≠ 0) :
    log_open_f f (some p) pid muxResult w =
      Outcome.returned (muxResult, none) (afterOpenFailed w p) := by
  simp [log_open_f, Proc.bind_apply, Proc.pure_apply, Proc.bind, malloc, memset_zero, load, store,
    World.setLog, World.emit, pthread_mutex_init, h, free, afterOpenFailed]
  funext q
  by_cases hp : q = p <;> simp [hp]

theorem log_close_run (w : World) (p : LogPtr) (lg : log) (hlive : w.heap p = some lg)
    (hfree : lg.log_mux = Mutex.unlocked)
    (hopen : lg.log_f ≠ stderr → (w.files lg.log_f).isOpen = true) :
    log_close p w = Outcome.returned () (afterClose w p lg) := by
  by_cases hs : lg.log_f = stderr
  · simp [log_close, Proc.bind_apply, Proc.pure_apply, Proc.bind, load, hlive, hs,
      pthread_mutex_destroy, hfree, World.setLog, World.emit, free, afterClose]
    funext q
    by_cases hp : q = p <;> simp [hp]
  · simp [log_close, Proc.bind_apply, Proc.pure_apply, Proc.bind, load, hlive, hs, fclose,
      hopen hs, pthread_mutex_destroy, hfree, World.setLog, World.emit, World.setFile, free,
      afterClose]
    funext q
    by_cases hp : q = p <;> simp [hp]

theorem zeroPad_length (width : Nat) (s : List Char) :
    (zeroPad width s).length = max width s.length := by
  simp [zeroPad]
  omega

theorem zeroPad_isDigits (width : Nat) (s : List Char) (h : IsDigits s) :
    IsDigits (zeroPad width s) := by
  intro c hc
  simp only [zeroPad, List.mem_append, List.mem_replicate] at hc
  rcases hc with ⟨_, rfl⟩ | hc
  · decide
  · exact h c hc

theorem decimal_of_nonneg (v : Int) (h : 0 ≤ v) : decimal v = utoa v.natAbs := by
  have hn : ¬ v < 0 := by omega
  simp [decimal, hn]

theorem lineGrammar_iff_matchLine (k : Nat) (s : List Char) :
    lineGrammar k s ↔ matchLine k s = true := by
  constructor
  · rintro ⟨secs, usecs, pids, rfl, hne, hds, hul, hud, hpl, hpd⟩
    have hs : secs ++ ".".toList ++ usecs ++ ": ".toList ++ pids ++
        ": [INF] x.c:42: in f(): hello 7\n".toList =
        secs ++ '.' :: (usecs ++ ':' :: ' ' :: (pids ++ roundTripTail)) := by
      simp [roundTripTail]
    have hdot : List.takeWhile Char.isDigit
        ('.' :: (usecs ++ ':' :: ' ' :: (pids ++ roundTripTail))) = [] := by
      rw [List.takeWhile_cons]
      rfl
    have hdot2 : List.dropWhile Char.isDigit
        ('.' :: (usecs ++ ':' :: ' ' :: (pids ++ roundTripTail))) =
        '.' :: (usecs ++ ':' :: ' ' :: (pids ++ roundTripTail)) := by
      rw [List.dropWhile_cons]
      rfl
    have hsecs : secs.isEmpty = false := by
      cases secs with
      | nil => exact absurd rfl hne
      | cons a l => rfl
    rw [hs]
    unfold matchLine
    rw [List.takeWhile_append_of_pos hds, List.dropWhile_append_of_pos hds, hdot, hdot2,
      List.append_nil, hsecs]
    simp only [List.take_left' hul, List.drop_left' hul, List.take_left' hpl,
      List.drop_left' hpl, hul, hpl, beq_self_eq_true, Bool.not_false, Bool.true_and,
      Bool.and_true, List.all_eq_true]
    rw [Bool.and_eq_true]
    exact ⟨List.all_eq_true.mpr hud, List.all_eq_true.mpr hpd⟩
  · intro h
    unfold matchLine at h
    rw [Bool.and_eq_true] at h
    obtain ⟨h1, h2⟩ := h
    split at h2
    · rename_i r heq1
      simp only [Bool.and_eq_true] at h2
      obtain ⟨⟨hlen, hall⟩, h3⟩ := h2
      split at h3
      · rename_i r' heq2
        simp only [Bool.and_eq_true] at h3
        obtain ⟨⟨hlen2, hall2⟩, htail⟩ := h3
        refine ⟨s.takeWhile Char.isDigit, r.take 6, r'.take k, ?_, ?_, ?_, ?_, ?_, ?_, ?_⟩
        · have e1 := List.takeWhile_append_dropWhile Char.isDigit s
          have e2 := List.take_append_drop 6 r
          have e3 := List.take_append_drop k r'
          have e4 : List.drop k r' = roundTripTail := by simpa using htail
          rw [heq1] at e1
          rw [heq2] at e2
          rw [e4] at e3
          conv_lhs => rw [← e1, ← e2, ← e3]
          simp [roundTripTail]
        · intro hnil
          rw [hnil] at h1
          simp at h1
        · intro c hc
          exact (List.mem_takeWhile_imp hc)
        · simpa using hlen
        · intro c hc
          exact List.all_eq_true.mp hall c hc
        · simpa using hlen2
        · intro c hc
          exact List.all_eq_true.mp hall2 c hc
      · cases h3
    · cases h2

theorem not_lineGrammar_six_digit_pid :
    ¬ lineGrammar 5 "0.000000: 100000: [INF] x.c:42: in f(): hello 7\n".toList := by
  rw [lineGrammar_iff_matchLine]
  decide

/-- A sequence returns only when its first part returns and the rest does. -/
theorem Proc.bind_returned {α β : Type} (x : Proc α) (k : α → Proc β) (w w' : World) (v : β)
    (h : Proc.bind x k w = Outcome.returned v w') :
    ∃ a w1, x w = Outcome.returned a w1 ∧ k a w1 = Outcome.returned v w' := by
  unfold Proc.bind at h
  split at h
  · exact ⟨_, _, by assumption, h⟩
  · cases h
  · cases h
  · cases h

theorem log_abort_at_run (w : World) (p : LogPtr) (lg : log) (file : List Char) (line : Nat)
    (func msg : List Char) (tv : Int × Int)
    (hlive : w.heap p = some lg) (hfree : lg.log_mux = Mutex.unlocked)
    (hopen : (w.files lg.log_f).isOpen = true) :
    log_abort_at p file line func msg tv w =
      Outcome.aborted (afterAbort w p lg
        (lineHead tv.1 tv.2 (toUnsigned lg.log_pid) (levelstr.getD LOG_CRIT.toNat []) file line
          func) msg) := by
  have hrun := log_printf_at_run w p lg file line func LOG_CRIT "%s".toList [Arg.str msg] msg tv
    hlive hfree hopen (by decide) (vformat_percent_s msg)
  simp only [log_abort_at, Proc.bind_apply, Proc.bind, hrun]
  simp [afterLine, pthread_mutex_lock, load, fclose, abort, World.setLog, World.emit,
    World.setFile, hopen, afterAbort]
  constructor
  · funext q
    by_cases hq : q = lg.log_f <;> simp [hq]
  · funext q
    by_cases hp : q = p <;> simp [hp]

theorem log_abort_at_noreturn (w : World) (p : LogPtr) (file : List Char) (line : Nat)
    (func msg : List Char) (tv : Int × Int) (v : Unit) (w' : World) :
    log_abort_at p file line func msg tv w ≠ Outcome.returned v w' := by
  intro h
  simp only [log_abort_at, Proc.bind_apply] at h
  obtain ⟨_, w1, -, h⟩ := Proc.bind_returned _ _ _ _ _ h
  obtain ⟨_, w2, -, h⟩ := Proc.bind_returned _ _ _ _ _ h
  obtain ⟨_, w3, -, h⟩ := Proc.bind_returned _ _ _ _ _ h
  obtain ⟨_, w4, -, h⟩ := Proc.bind_returned _ _ _ _ _ h
  cases h

theorem log_perror_at_zero (strerror_r : Int → Nat → Int × List Char) (w : World) (p : LogPtr)
    (file : List Char) (line : Nat) (func : List Char) (level : Int) (msg : List Char)
    (tv : Int × Int) :
    log_perror_at strerror_r p file line func level msg 0 tv w =
      Proc.bind (log_abort_at p file line func zeroErrorMessage tv)
        (fun _ => log_printf_at p file line func level "%s: %s".toList
          [Arg.str msg, Arg.ptr (strerror_r 0 127).1] tv) w := by
  simp [log_perror_at, Proc.bind_apply, zeroErrorMessage]

theorem log_perror_at_nonzero (strerror_r : Int → Nat → Int × List Char) (w : World) (p : LogPtr)
    (file : List Char) (line : Nat) (func : List Char) (level : Int) (msg : List Char)
    (err : Int) (tv : Int × Int) (herr : err ≠ 0) :
    log_perror_at strerror_r p file line func level msg err tv w =
      log_printf_at p file line func level "%s: %s".toList
        [Arg.str msg, Arg.ptr (strerror_r err 127).1] tv w := by
  simp [log_perror_at, Proc.bind_apply, Proc.pure_apply, Proc.bind, herr]

theorem afterLine_heap (w : World) (p : LogPtr) (lg : log) (pre m : List Char) :
    (afterLine w p lg pre m).heap p = some ⟨lg.log_f, lg.log_pid, Mutex.unlocked⟩ := by
  simp [afterLine]

/-- After a call of `log_printf_at` that returns, on a logger whose lock was
free, the logger is as it was before. -/
theorem log_printf_at_returned_heap (w : World) (p : LogPtr) (lg : log) (file : List Char)
    (line : Nat) (func : List Char) (level : Int) (fmt : List Char) (ap : List Arg)
    (tv : Int × Int) (v : Int) (w' : World)
    (hlive : w.heap p = some lg) (hfree : lg.log_mux = Mutex.unlocked)
    (hret : log_printf_at p file line func level fmt ap tv w = Outcome.returned v w') :
    w'.heap p = some ⟨lg.log_f, lg.log_pid, Mutex.unlocked⟩ := by
  by_cases hl : toUnsigned level < 6
  · rcases log_printf_at_cases w p file line func level fmt ap tv hl with
      ⟨lg', m, hlive', _, _, _, hrun⟩ | hb | hu
    · rw [hrun] at hret
      injection hret with _ hw
      rw [hlive] at hlive'
      injection hlive' with hlg
      rw [← hw, ← hlg]
      exact afterLine_heap _ _ _ _ _
    · rw [hb] at hret
      cases hret
    · rw [hu] at hret
      cases hret
  · rw [log_printf_at_einval w p file line func level fmt ap tv hl] at hret
    injection hret with _ hw
    rw [← hw, hlive, ← hfree]

theorem log_perror_at_zero_noreturn (strerror_r : Int → Nat → Int × List Char) (w : World)
    (p : LogPtr) (file : List Char) (line : Nat) (func : List Char) (level : Int)
    (msg : List Char) (tv : Int × Int) (v : Int) (w' : World) :
    log_perror_at strerror_r p file line func level msg 0 tv w ≠ Outcome.returned v w' := by
  intro h
  rw [log_perror_at_zero] at h
  obtain ⟨a, w1, h1, -⟩ := Proc.bind_returned _ _ _ _ _ h
  exact log_abort_at_noreturn w p file line func zeroErrorMessage tv a w1 h1

/-! ## Claims -/

/-- C1: `log_printf_at` returns `EINVAL` exactly when the level lies outside
`LOG_CRIT..LOG_DEBUG` (negative values and values of 6 and more included), and
then the world, so the sink and the lock, is unchanged; for a level inside the
set every return value is 0, and on a live logger with a free lock, an open
sink and a well-formed format the call does return 0. -/
theorem log_printf_at_einval_iff (w : World) (p : LogPtr) (file : List Char) (line : Nat)
    (func : List Char) (level : Int) (fmt : List Char) (ap : List Arg) (tv : Int × Int)
    (hint : -2 ^ 31 ≤ level ∧ level < 2 ^ 32) :
    ((level < LOG_CRIT ∨ LOG_DEBUG < level) →
      log_printf_at p file line func level fmt ap tv w = Outcome.returned EINVAL w) ∧
    ((∃ w', log_printf_at p file line func level fmt ap tv w = Outcome.returned EINVAL w') ↔
      (level < LOG_CRIT ∨ LOG_DEBUG < level)) ∧
    ((LOG_CRIT ≤ level ∧ level ≤ LOG_DEBUG) →
      (∀ v w', log_printf_at p file line func level fmt ap tv w = Outcome.returned v w' →
        v = 0) ∧
      (∀ lg m, w.heap p = some lg → lg.log_mux = Mutex.unlocked →
        (w.files lg.log_f).isOpen = true → vformat fmt ap = some m →
        ∃ w', log_printf_at p file line func level fmt ap tv w = Outcome.returned 0 w')) := by
  have hiff := toUnsigned_lt_iff level hint
  have hout : (level < LOG_CRIT ∨ LOG_DEBUG < level) →
      log_printf_at p file line func level fmt ap tv w = Outcome.returned EINVAL w := by
    intro h
    apply log_printf_at_einval
    rw [hiff]
    simp only [LOG_CRIT, LOG_DEBUG] at h
    omega
  have hin : (LOG_CRIT ≤ level ∧ level ≤ LOG_DEBUG) →
      ∀ v w', log_printf_at p file line func level fmt ap tv w = Outcome.returned v w' →
        v = 0 := by
    intro h v w' hret
    have hl : toUnsigned level < 6 := by
      rw [hiff]
      simp only [LOG_CRIT, LOG_DEBUG] at h
      omega
    rcases log_printf_at_cases w p file line func level fmt ap tv hl with
      ⟨lg, m, _, _, _, _, hrun⟩ | hb | hu
    · rw [hrun] at hret
      injection hret with hv _
      exact hv.symm
    · rw [hb] at hret
      cases hret
    · rw [hu] at hret
      cases hret
  refine ⟨hout, ⟨?_, fun h => ⟨w, hout h⟩⟩, fun h => ⟨hin h, ?_⟩⟩
  · rintro ⟨w', hret⟩
    by_contra hcon
    have h : LOG_CRIT ≤ level ∧ level ≤ LOG_DEBUG := by
      simp only [LOG_CRIT, LOG_DEBUG] at hcon ⊢
      omega
    have := hin h EINVAL w' hret
    simp [EINVAL] at this
  · intro lg m hlive hfree hopen hfmt
    have hl : toUnsigned level < 6 := by
      rw [hiff]
      simp only [LOG_CRIT, LOG_DEBUG] at h
      omega
    exact ⟨_, log_printf_at_run w p lg file line func level fmt ap m tv hlive hfree hopen hl hfmt⟩

/-- C1 at a concrete call: level -1 on the demo logger is refused with
`EINVAL` and the world is left as it was. -/
theorem log_printf_at_einval_iff_witness :
    (-2 ^ 31 ≤ (-1 : Int) ∧ (-1 : Int) < 2 ^ 32) ∧
    log_printf_at 1 "x.c".toList 42 "f".toList (-1) "hello %d".toList [Arg.int 7]
      (1700000000, 42) demoWorld = Outcome.returned EINVAL demoWorld :=
  ⟨by decide, (log_printf_at_einval_iff demoWorld 1 "x.c".toList 42 "f".toList (-1)
    "hello %d".toList [Arg.int 7] (1700000000, 42) (by decide)).1 (by decide)⟩

/-- C2: on a live logger with process id `pid`, for a level among the six
severities and a time reading `(sec, usec)`, `log_printf_at` returns 0 and
appends to the sink exactly the line
`<sec>.<usec padded to 6>: <pid padded to 5>: [TAG] <file>:<line>: in <func>(): <m>`
and a newline, leaving every other stream alone; the tag table holds six
pairwise distinct 5-character tokens, `[PAN]` to `[DBG]` in the order of the
severities. -/
theorem log_printf_at_line (w : World) (p : LogPtr) (lg : log) (file : List Char) (line : Nat)
    (func : List Char) (level : Int) (fmt : List Char) (ap : List Arg) (m : List Char)
    (sec usec : Int)
    (hlive : w.heap p = some lg) (hfree : lg.log_mux = Mutex.unlocked)
    (hopen : (w.files lg.log_f).isOpen = true)
    (hlevel : LOG_CRIT ≤ level ∧ level ≤ LOG_DEBUG) (hfmt : vformat fmt ap = some m)
    (husec : 0 ≤ usec) (hpid : 0 ≤ lg.log_pid ∧ lg.log_pid < 2 ^ 31) :
    (∃ w', log_printf_at p file line func level fmt ap (sec, usec) w = Outcome.returned 0 w' ∧
      (w'.files lg.log_f).bytes = (w.files lg.log_f).bytes ++
        specLine sec usec lg.log_pid (specTag level) file line func m ∧
      (∀ g, g ≠ lg.log_f → w'.files g = w.files g)) ∧
    levelstr = [LOG_CRIT, LOG_ERR, LOG_WARN, LOG_INFO, LOG_TRACE, LOG_DEBUG].map
      (fun l => "[".toList ++ specTag l ++ "]".toList) ∧
    levelstr.Nodup ∧ (∀ t ∈ levelstr, t.length = 5) := by
  have hl : 0 ≤ level ∧ level < 6 := by
    simp only [LOG_CRIT, LOG_DEBUG] at hlevel
    omega
  refine ⟨⟨_, log_printf_at_run w p lg file line func level fmt ap m (sec, usec) hlive hfree hopen
    (toUnsigned_of_level level hl) hfmt, ?_, ?_⟩, by decide, by decide, by decide⟩
  · have h := lineHead_eq_specLine sec usec lg.log_pid level file line func m husec
      ⟨hpid.1, by omega⟩ hl
    simp only [afterLine, if_true]
    rw [← h]
  · intro g hg
    simp [afterLine, hg]

/-- C2 at a concrete call: an Info line on the demo logger. -/
theorem log_printf_at_line_witness :
    ∃ w', log_printf_at 1 "x.c".toList 42 "f".toList LOG_INFO "hello %d".toList [Arg.int 7]
        (1700000000, 42) demoWorld = Outcome.returned 0 w' ∧
      (w'.files 7).bytes = "1700000000.000042: 12345: [INF] x.c:42: in f(): hello 7\n".toList :=
  have h := (log_printf_at_line demoWorld 1 demoLog "x.c".toList 42 "f".toList LOG_INFO
    "hello %d".toList [Arg.int 7] "hello 7".toList 1700000000 42 rfl rfl rfl (by decide) (by decide)
    (by decide) (by decide)).1
  h.imp fun _ hw => ⟨hw.1, hw.2.1.trans (by decide)⟩

/-- C3, as amended: for every process id `pid` captured by `log_open_f` and
every time reading with `sec >= 0` and `0 <= usec < 1000000`, the line emitted
for file `x.c`, line 42, function `f`, level `LOG_INFO` and format `hello %d`
with argument 7 is: one or more digits, a dot, exactly 6 digits, `: `, at
least 5 digits, `: [INF] x.c:42: in f(): hello 7` and a newline. The process-id
field has exactly 5 digits if and only if `pid < 100000`. -/
theorem log_printf_at_round_trip (w : World) (f : FilePtr) (p : LogPtr) (pid sec usec : Int)
    (hopen : (w.files f).isOpen = true) (hpid : 0 ≤ pid ∧ pid < 2 ^ 31) (hsec : 0 ≤ sec)
    (husec : 0 ≤ usec ∧ usec < 1000000) :
    ∃ w1 w2 ln k, log_open_f f (some p) pid 0 w = Outcome.returned (0, some p) w1 ∧
      log_printf_at p "x.c".toList 42 "f".toList LOG_INFO "hello %d".toList [Arg.int 7]
        (sec, usec) w1 = Outcome.returned 0 w2 ∧
      (w2.files f).bytes = (w.files f).bytes ++ ln ∧ lineGrammar k ln ∧ 5 ≤ k ∧
      (k = 5 ↔ pid < 100000) := by
  have hlive : (afterOpen w f p pid).heap p = some ⟨f, pid, Mutex.unlocked⟩ := by
    simp [afterOpen]
  have hopen1 : ((afterOpen w f p pid).files f).isOpen = true := by
    simp [afterOpen, hopen]
  have hrun := log_printf_at_run (afterOpen w f p pid) p ⟨f, pid, Mutex.unlocked⟩ "x.c".toList 42
    "f".toList LOG_INFO "hello %d".toList [Arg.int 7] "hello 7".toList (sec, usec) hlive rfl hopen1
    (by decide) (by decide)
  have hline := lineHead_eq_specLine sec usec pid LOG_INFO "x.c".toList 42 "f".toList
    "hello 7".toList husec.1 ⟨hpid.1, by omega⟩ (by decide)
  have hdp : decimal pid = utoa pid.natAbs := decimal_of_nonneg pid hpid.1
  refine ⟨_, _, specLine sec usec pid (specTag LOG_INFO) "x.c".toList 42 "f".toList
    "hello 7".toList, (zeroPad 5 (decimal pid)).length, log_open_f_run w f p pid, hrun, ?_,
    ⟨decimal sec, zeroPad 6 (decimal usec), zeroPad 5 (decimal pid), ?_, ?_, ?_, ?_, ?_, rfl, ?_⟩,
    ?_, ?_⟩
  · simp only [afterLine, if_true]
    rw [← hline]
    simp [afterOpen]
  · have h42 : utoa 42 = ['4', '2'] := by decide
    simp [specLine, specTag, LOG_INFO, LOG_CRIT, LOG_ERR, LOG_WARN, h42]
  · rw [decimal_of_nonneg sec hsec]
    intro h
    have := utoa_length_pos sec.natAbs
    rw [h] at this
    simp at this
  · rw [decimal_of_nonneg sec hsec]
    exact utoa_isDigits _
  · rw [zeroPad_length, decimal_of_nonneg usec husec.1]
    have := utoa_length_le usec.natAbs 5 (by omega)
    omega
  · rw [decimal_of_nonneg usec husec.1]
    exact zeroPad_isDigits _ _ (utoa_isDigits _)
  · rw [hdp]
    exact zeroPad_isDigits _ _ (utoa_isDigits _)
  · rw [zeroPad_length]
    omega
  · rw [zeroPad_length, hdp]
    constructor
    · intro h
      by_contra hcon
      have := utoa_length_ge pid.natAbs 5 (by omega)
      omega
    · intro h
      have := utoa_length_le pid.natAbs 4 (by omega)
      omega

/-- C3 as amended, at a concrete call: process 12345 at time 1700000000.000042
on stream 7. -/
theorem log_printf_at_round_trip_witness :
    (emptyWorld.files 7).isOpen = true ∧
    ∃ w1 w2 ln k, log_open_f 7 (some 1) 12345 0 emptyWorld = Outcome.returned (0, some 1) w1 ∧
      log_printf_at 1 "x.c".toList 42 "f".toList LOG_INFO "hello %d".toList [Arg.int 7]
        (1700000000, 42) w1 = Outcome.returned 0 w2 ∧
      (w2.files 7).bytes = (emptyWorld.files 7).bytes ++ ln ∧ lineGrammar k ln ∧ 5 ≤ k ∧
      (k = 5 ↔ (12345 : Int) < 100000) :=
  ⟨rfl, log_printf_at_round_trip emptyWorld 7 1 12345 1700000000 42 rfl (by decide) (by decide)
    (by decide)⟩

/-- C3 as stated fails: for the process id 100000 the emitted line has a
process-id field of 6 digits and does not match the grammar with exactly 5. -/
theorem round_trip_six_digit_pid :
    ∃ w1 w2, log_open_f 7 (some 1) 100000 0 emptyWorld = Outcome.returned (0, some 1) w1 ∧
      log_printf_at 1 "x.c".toList 42 "f".toList LOG_INFO "hello %d".toList [Arg.int 7]
        (0, 0) w1 = Outcome.returned 0 w2 ∧
      (w2.files 7).bytes = "0.000000: 100000: [INF] x.c:42: in f(): hello 7\n".toList ∧
      ¬ lineGrammar 5 (w2.files 7).bytes := by
  have hrun := log_printf_at_run (afterOpen emptyWorld 7 1 100000) 1 ⟨7, 100000, Mutex.unlocked⟩
    "x.c".toList 42 "f".toList LOG_INFO "hello %d".toList [Arg.int 7] "hello 7".toList (0, 0)
    rfl rfl rfl (by decide) (by decide)
  have hbytes : ((afterLine (afterOpen emptyWorld 7 1 100000) 1 ⟨7, 100000, Mutex.unlocked⟩
      (lineHead 0 0 (toUnsigned 100000) (levelstr.getD LOG_INFO.toNat []) "x.c".toList 42
        "f".toList) "hello 7".toList).files 7).bytes =
      "0.000000: 100000: [INF] x.c:42: in f(): hello 7\n".toList := by decide
  refine ⟨_, _, log_open_f_run emptyWorld 7 1 100000, hrun, hbytes, ?_⟩
  rw [hbytes]
  exact not_lineGrammar_six_digit_pid

/-- C7: `log_close` on a live logger with a free lock and an open sink closes
the sink if and only if the sink is not `stderr`: a logger on `stderr` leaves
every stream as it was, a logger on another stream leaves that stream closed
with its content kept; in both cases the lock is destroyed and then the
logger is freed. -/
theorem log_close_ownership (w : World) (p : LogPtr) (lg : log)
    (hlive : w.heap p = some lg) (hfree : lg.log_mux = Mutex.unlocked)
    (hopen : (w.files lg.log_f).isOpen = true) :
    ∃ w', log_close p w = Outcome.returned () w' ∧
      ((w'.files lg.log_f).isOpen = false ↔ lg.log_f ≠ stderr) ∧
      (lg.log_f = stderr → w'.files = w.files) ∧
      (lg.log_f ≠ stderr → (w'.files lg.log_f).isOpen = false ∧
        (w'.files lg.log_f).bytes = (w.files lg.log_f).bytes ∧
        ∀ g, g ≠ lg.log_f → w'.files g = w.files g) ∧
      w'.heap p = none ∧ (∀ q, q ≠ p → w'.heap q = w.heap q) ∧
      w'.events = w.events ++ (if lg.log_f ≠ stderr then [Event.fclose lg.log_f] else []) ++
        [Event.mutex_destroy p, Event.free p] := by
  refine ⟨_, log_close_run w p lg hlive hfree (fun _ => hopen), ?_, ?_, ?_, ?_, ?_, rfl⟩
  · by_cases hs : lg.log_f = stderr
    · simp [afterClose, hs]
      rw [← hs]
      exact hopen
    · simp [afterClose, hs]
  · intro hs
    funext q
    simp [afterClose, hs]
  · intro hs
    refine ⟨by simp [afterClose, hs], by simp [afterClose, hs], ?_⟩
    intro g hg
    simp [afterClose, hg]
  · simp [afterClose]
  · intro q hq
    simp [afterClose, hq]

/-- C7 at two concrete loggers: closing the one on stream 7 closes stream 7,
closing the one on `stderr` leaves `stderr` open. -/
theorem log_close_ownership_witness :
    (∃ w', log_close 1 demoWorld = Outcome.returned () w' ∧ (w'.files 7).isOpen = false ∧
      w'.heap 1 = none) ∧
    (∃ w', log_close 1 stderrWorld = Outcome.returned () w' ∧ (w'.files stderr).isOpen = true ∧
      w'.heap 1 = none) := by
  constructor
  · obtain ⟨w', h1, h2, -, -, h5, -⟩ := log_close_ownership demoWorld 1 demoLog rfl rfl rfl
    exact ⟨w', h1, h2.mpr (by decide), h5⟩
  · obtain ⟨w', h1, -, h3, -, h5, -⟩ := log_close_ownership stderrWorld 1 stderrLog rfl rfl rfl
    refine ⟨w', h1, ?_, h5⟩
    rw [h3 rfl]
    rfl

/-- C8: `log_open_f` always returns. Either it returns 0 and stores a pointer
to a fully initialised logger (sink `f`, the current process id, a free
initialised lock) with `f` in line-buffered mode, which happens exactly when
the allocation and the lock initialisation both succeed; or it returns a
nonzero code and stores NULL, and then, if the allocation had succeeded, the
code is the one of the lock initialisation and the logger has been freed. -/
theorem log_open_f_all_or_nothing (w : World) (f : FilePtr) (mallocResult : Option LogPtr)
    (pid muxResult : Int) :
    ∃ err handle w', log_open_f f mallocResult pid muxResult w =
        Outcome.returned (err, handle) w' ∧
      (err = 0 ↔ (mallocResult ≠ none ∧ muxResult = 0)) ∧
      ((err = 0 ∧ ∃ p, handle = some p ∧ mallocResult = some p ∧
          w'.heap p = some ⟨f, pid, Mutex.unlocked⟩ ∧ (w'.files f).lineBuffered = true ∧
          (w'.files f).bytes = (w.files f).bytes ∧ (w'.files f).isOpen = (w.files f).isOpen ∧
          (∀ g, g ≠ f → w'.files g = w.files g) ∧ (∀ q, q ≠ p → w'.heap q = w.heap q)) ∨
       (err ≠ 0 ∧ handle = none ∧ w'.files = w.files ∧
          (mallocResult = none → err = ENOMEM ∧ w'.heap = w.heap) ∧
          (∀ p, mallocResult = some p → err = muxResult ∧ w'.heap p = none ∧
            (∀ q, q ≠ p → w'.heap q = w.heap q) ∧
            w'.events = w.events ++ [Event.malloc p, Event.free p]))) := by
  cases mallocResult with
  | none =>
    refine ⟨_, _, _, log_open_f_nomem w f pid muxResult, by simp [ENOMEM], Or.inr ?_⟩
    simp [ENOMEM]
  | some p =>
    by_cases hm : muxResult = 0
    · subst hm
      refine ⟨_, _, _, log_open_f_run w f p pid, by simp, Or.inl ⟨rfl, p, rfl, rfl, ?_⟩⟩
      refine ⟨by simp [afterOpen], by simp [afterOpen], by simp [afterOpen], by simp [afterOpen],
        ?_, ?_⟩
      · intro g hg
        simp [afterOpen, hg]
      · intro q hq
        simp [afterOpen, hq]
    · refine ⟨_, _, _, log_open_f_nomux w f p pid muxResult hm, by simp [hm], Or.inr ?_⟩
      refine ⟨hm, rfl, rfl, by simp, ?_⟩
      intro q hq
      cases hq
      refine ⟨rfl, by simp [afterOpenFailed], ?_, rfl⟩
      intro q hq
      simp [afterOpenFailed, hq]

/-- C4: `log_perror_at` called with `err = 0` never returns, whatever the
state and the level; on a live logger with a free lock and an open sink it
ends in `abort` after appending exactly one `[PAN]` line whose message is
`log_perror() called with a zero error code`. -/
theorem log_perror_at_zero_aborts (strerror_r : Int → Nat → Int × List Char) (w : World) (p : LogPtr)
    (file : List Char) (line : Nat) (func : List Char) (level : Int) (msg : List Char)
    (sec usec : Int) :
    (∀ v w', log_perror_at strerror_r p file line func level msg 0 (sec, usec) w ≠
      Outcome.returned v w') ∧
    (∀ lg, w.heap p = some lg → lg.log_mux = Mutex.unlocked →
      (w.files lg.log_f).isOpen = true → 0 ≤ usec → 0 ≤ lg.log_pid ∧ lg.log_pid < 2 ^ 31 →
      ∃ w' pre, log_perror_at strerror_r p file line func level msg 0 (sec, usec) w =
          Outcome.aborted w' ∧
        (w'.files lg.log_f).bytes = (w.files lg.log_f).bytes ++
          specLine sec usec lg.log_pid "PAN".toList file line func
            "log_perror() called with a zero error code".toList ∧
        w'.events = w.events ++ [Event.mutex_lock p, Event.gettimeofday,
          Event.write lg.log_f pre,
          Event.write lg.log_f "log_perror() called with a zero error code".toList,
          Event.write lg.log_f ['\n'], Event.mutex_unlock p, Event.mutex_lock p,
          Event.fclose lg.log_f, Event.abort]) := by
  refine ⟨fun v w' => log_perror_at_zero_noreturn strerror_r w p file line func level msg
    (sec, usec) v w', ?_⟩
  intro lg hlive hfree hopen husec hpid
  have hrun := log_abort_at_run w p lg file line func zeroErrorMessage (sec, usec) hlive hfree
    hopen
  have hline := lineHead_eq_specLine sec usec lg.log_pid LOG_CRIT file line func
    zeroErrorMessage husec ⟨hpid.1, by omega⟩ (by decide)
  refine ⟨afterAbort w p lg (lineHead sec usec (toUnsigned lg.log_pid)
    (levelstr.getD LOG_CRIT.toNat []) file line func) zeroErrorMessage, lineHead sec usec
    (toUnsigned lg.log_pid) (levelstr.getD LOG_CRIT.toNat []) file line func, ?_, ?_, rfl⟩
  · rw [log_perror_at_zero]
    simp only [Proc.bind, hrun]
  · simp only [afterAbort, if_true]
    rw [hline]
    rfl

/-- C4 at a concrete call: a zero error code on the demo logger, with a
requested level of `LOG_DEBUG` and the caller's message `open`. -/
theorem log_perror_at_zero_aborts_witness :
    ∃ w', log_perror_at demoStrerror 1 "x.c".toList 42 "f".toList LOG_DEBUG "open".toList 0
        (1700000000, 42) demoWorld = Outcome.aborted w' ∧
      (w'.files 7).bytes = ("1700000000.000042: 12345: [PAN] x.c:42: in f(): " ++
        "log_perror() called with a zero error code\n").toList := by
  obtain ⟨w', pre, h1, h2, -⟩ := (log_perror_at_zero_aborts demoStrerror demoWorld 1 "x.c".toList
    42 "f".toList LOG_DEBUG "open".toList 1700000000 42).2 demoLog rfl rfl rfl (by decide)
    (by decide)
  exact ⟨w', h1, h2.trans (by decide)⟩

/-- C5: on a live logger with a free lock and an open sink `log_abort_at`
never returns and ends in `abort` with: the sink holding its prior content
followed by exactly the line `log_printf_at` writes for `LOG_CRIT` with `msg`
taken verbatim, no write after that line, the lock acquired again and held,
and the sink closed. -/
theorem log_abort_at_final_line (w : World) (p : LogPtr) (lg : log) (file : List Char)
    (line : Nat) (func msg : List Char) (sec usec : Int)
    (hlive : w.heap p = some lg) (hfree : lg.log_mux = Mutex.unlocked)
    (hopen : (w.files lg.log_f).isOpen = true) (husec : 0 ≤ usec)
    (hpid : 0 ≤ lg.log_pid ∧ lg.log_pid < 2 ^ 31) :
    (∀ v w', log_abort_at p file line func msg (sec, usec) w ≠ Outcome.returned v w') ∧
    ∃ w' pre, log_abort_at p file line func msg (sec, usec) w = Outcome.aborted w' ∧
      (w'.files lg.log_f).bytes = (w.files lg.log_f).bytes ++
        specLine sec usec lg.log_pid "PAN".toList file line func msg ∧
      (∀ fmt ap, vformat fmt ap = some msg →
        ∃ w1, log_printf_at p file line func LOG_CRIT fmt ap (sec, usec) w =
            Outcome.returned 0 w1 ∧ (w'.files lg.log_f).bytes = (w1.files lg.log_f).bytes) ∧
      (w'.files lg.log_f).isOpen = false ∧
      (∀ g, g ≠ lg.log_f → w'.files g = w.files g) ∧
      w'.heap p = some ⟨lg.log_f, lg.log_pid, Mutex.locked⟩ ∧
      w'.events = w.events ++ [Event.mutex_lock p, Event.gettimeofday,
        Event.write lg.log_f pre, Event.write lg.log_f msg, Event.write lg.log_f ['\n'],
        Event.mutex_unlock p, Event.mutex_lock p, Event.fclose lg.log_f, Event.abort] := by
  have hrun := log_abort_at_run w p lg file line func msg (sec, usec) hlive hfree hopen
  have hline := lineHead_eq_specLine sec usec lg.log_pid LOG_CRIT file line func msg husec
    ⟨hpid.1, by omega⟩ (by decide)
  refine ⟨fun v w' => log_abort_at_noreturn w p file line func msg (sec, usec) v w',
    _, _, hrun, ?_, ?_, by simp [afterAbort], ?_, by simp [afterAbort], rfl⟩
  · simp only [afterAbort, if_true]
    rw [hline]
    rfl
  · intro fmt ap hfmt
    refine ⟨_, log_printf_at_run w p lg file line func LOG_CRIT fmt ap msg (sec, usec) hlive hfree
      hopen (by decide) hfmt, ?_⟩
    simp [afterAbort, afterLine]
  · intro g hg
    simp [afterAbort, hg]

/-- C5 at a concrete call: a message with a percent sign on the demo logger. -/
theorem log_abort_at_final_line_witness :
    ∃ w', log_abort_at 1 "x.c".toList 42 "f".toList "100%d done".toList (1700000000, 42)
        demoWorld = Outcome.aborted w' ∧
      (w'.files 7).bytes =
        "1700000000.000042: 12345: [PAN] x.c:42: in f(): 100%d done\n".toList ∧
      (w'.files 7).isOpen = false := by
  obtain ⟨w', pre, h1, h2, -, h4, -⟩ := (log_abort_at_final_line demoWorld 1 demoLog "x.c".toList
    42 "f".toList "100%d done".toList 1700000000 42 rfl rfl rfl (by decide) (by decide)).2
  exact ⟨w', h1, h2.trans (by decide), h4⟩

/-- C6, the code at a failing input: `log_perror_at` with error 2, level
`LOG_ERR` and message `open` on the demo logger, with a `strerror_r` that
answers 0 for error 2 and stores `No such file or directory`. The call
returns 0, but the line it appends ends in `open: (null)`; it is not the line
with the message `open: No such file or directory`. With error 9999, for
which that `strerror_r` answers `EINVAL`, the call hands `%s` the address 22
and is undefined. -/
theorem log_perror_at_prints_null :
    (∃ w', log_perror_at demoStrerror 1 "x.c".toList 42 "f".toList LOG_ERR "open".toList 2
        (1700000000, 42) demoWorld = Outcome.returned 0 w' ∧
      (w'.files 7).bytes =
        "1700000000.000042: 12345: [ERR] x.c:42: in f(): open: (null)\n".toList ∧
      (w'.files 7).bytes ≠ specLine 1700000000 42 12345 (specTag LOG_ERR) "x.c".toList 42
        "f".toList ("open".toList ++ ": ".toList ++ (demoStrerror 2 127).2)) ∧
    log_perror_at demoStrerror 1 "x.c".toList 42 "f".toList LOG_ERR "open".toList 9999
      (1700000000, 42) demoWorld = Outcome.undefined := by
  have hpe := log_perror_at_nonzero demoStrerror demoWorld 1 "x.c".toList 42 "f".toList LOG_ERR
    "open".toList 2 (1700000000, 42) (by decide)
  have hrun := log_printf_at_run demoWorld 1 demoLog "x.c".toList 42 "f".toList LOG_ERR
    "%s: %s".toList [Arg.str "open".toList, Arg.ptr (demoStrerror 2 127).1]
    "open: (null)".toList (1700000000, 42) rfl rfl rfl (by decide) (by decide)
  have hpe2 := log_perror_at_nonzero demoStrerror demoWorld 1 "x.c".toList 42 "f".toList LOG_ERR
    "open".toList 9999 (1700000000, 42) (by decide)
  have hbad := log_printf_at_bad_format demoWorld 1 demoLog "x.c".toList 42 "f".toList LOG_ERR
    "%s: %s".toList [Arg.str "open".toList, Arg.ptr (demoStrerror 9999 127).1] (1700000000, 42)
    rfl rfl rfl (by decide) (by decide)
  exact ⟨⟨_, hpe.trans hrun, by decide, by decide⟩, hpe2.trans hbad⟩

/-- C10: a call of `log_printf_at` with a valid level on a logger whose lock is
free locks first, then reads the time, then writes the prefix, the message and
the newline, then unlocks and returns; every write happens with the lock
held. After every returning call of `log_printf_at` or `log_perror_at` on such
a logger the lock is free and the sink and process id are as before. -/
theorem log_printf_at_lock_discipline (w : World) (p : LogPtr) (lg : log) (file : List Char)
    (line : Nat) (func : List Char) (level : Int) (fmt : List Char) (ap : List Arg)
    (m : List Char) (tv : Int × Int)
    (hlive : w.heap p = some lg) (hfree : lg.log_mux = Mutex.unlocked)
    (hopen : (w.files lg.log_f).isOpen = true)
    (hlevel : LOG_CRIT ≤ level ∧ level ≤ LOG_DEBUG) (hfmt : vformat fmt ap = some m) :
    (∃ w' pre, log_printf_at p file line func level fmt ap tv w = Outcome.returned 0 w' ∧
      w'.events = w.events ++ [Event.mutex_lock p, Event.gettimeofday,
        Event.write lg.log_f pre, Event.write lg.log_f m, Event.write lg.log_f ['\n'],
        Event.mutex_unlock p] ∧
      lockedWrites p lg.log_f false [Event.mutex_lock p, Event.gettimeofday,
        Event.write lg.log_f pre, Event.write lg.log_f m, Event.write lg.log_f ['\n'],
        Event.mutex_unlock p] = true ∧
      w'.heap p = some ⟨lg.log_f, lg.log_pid, Mutex.unlocked⟩) ∧
    (∀ file' line' func' level' fmt' ap' tv' v w',
      log_printf_at p file' line' func' level' fmt' ap' tv' w = Outcome.returned v w' →
      w'.heap p = some ⟨lg.log_f, lg.log_pid, Mutex.unlocked⟩) ∧
    (∀ strerror_r file' line' func' level' msg err tv' v w',
      log_perror_at strerror_r p file' line' func' level' msg err tv' w =
        Outcome.returned v w' →
      w'.heap p = some ⟨lg.log_f, lg.log_pid, Mutex.unlocked⟩) := by
  have hl : 0 ≤ level ∧ level < 6 := by
    simp only [LOG_CRIT, LOG_DEBUG] at hlevel
    omega
  refine ⟨⟨_, _, log_printf_at_run w p lg file line func level fmt ap m tv hlive hfree hopen
    (toUnsigned_of_level level hl) hfmt, rfl, by simp [lockedWrites], afterLine_heap _ _ _ _ _⟩,
    ?_, ?_⟩
  · intro file' line' func' level' fmt' ap' tv' v w' hret
    exact log_printf_at_returned_heap w p lg file' line' func' level' fmt' ap' tv' v w' hlive
      hfree hret
  · intro strerror_r file' line' func' level' msg err tv' v w' hret
    by_cases herr : err = 0
    · subst herr
      exact absurd hret
        (log_perror_at_zero_noreturn strerror_r w p file' line' func' level' msg tv' v w')
    · rw [log_perror_at_nonzero strerror_r w p file' line' func' level' msg err tv' herr] at hret
      exact log_printf_at_returned_heap w p lg file' line' func' level' _ _ tv' v w' hlive hfree
        hret

/-- C10 at a concrete call: the events of one Info line on the demo logger. -/
theorem log_printf_at_lock_discipline_witness :
    ∃ w' pre, log_printf_at 1 "x.c".toList 42 "f".toList LOG_INFO "hello %d".toList [Arg.int 7]
        (1700000000, 42) demoWorld = Outcome.returned 0 w' ∧
      w'.events = [Event.mutex_lock 1, Event.gettimeofday, Event.write 7 pre,
        Event.write 7 "hello 7".toList, Event.write 7 ['\n'], Event.mutex_unlock 1] ∧
      w'.heap 1 = some ⟨7, 12345, Mutex.unlocked⟩ := by
  obtain ⟨w', pre, h1, h2, -, h4⟩ := (log_printf_at_lock_discipline demoWorld 1 demoLog
    "x.c".toList 42 "f".toList LOG_INFO "hello %d".toList [Arg.int 7] "hello 7".toList
    (1700000000, 42) rfl rfl rfl (by decide) (by decide)).1
  exact ⟨w', pre, h1, h2, h4⟩

end Liblog
